import Mathlib

/-!
Verification of the graph-convolutional model definitions in `model.py`
(classes `GCN`, `GCNencoder`, `GCNdecoder`, `Discriminator`, `Teacher`,
`Student`).

Tensors are modelled as Mathlib matrices over a linear ordered field
(instantiated at `ℝ` for the claims, mirroring the real-valued float
tensors of the source).  `torch.mm` and `torch.spmm` are modelled as the
explicit dot-product matrix product; `F.relu` as the elementwise
`max · 0`; `F.dropout` as the identity in evaluation mode and, in
training mode, as the usual mask-and-rescale map where the random
Bernoulli draw is passed in as an explicit boolean mask; `F.sigmoid` and
`F.softmax` over `ℝ` with `Real.exp`; `Tensor.view` as a partial
(Option-valued) row-major reshape that succeeds exactly when the element
counts agree.  Randomly initialised parameters (`reset_parameters`) are
modelled by universally quantifying over the parameter values.
-/

variable {α : Type} [LinearOrderedField α]
variable {n m k fin fout : ℕ}

/-- `torch.mm`: dense matrix product, entry `(i, j)` is the dot product of
row `i` of `X` with column `j` of `W`. -/
def mm (X : Matrix (Fin n) (Fin k) α) (W : Matrix (Fin k) (Fin m) α) :
    Matrix (Fin n) (Fin m) α :=
  Matrix.of fun i j => ∑ l, X i l * W l j

/-- `torch.spmm`: sparse-dense matrix product; mathematically the same
matrix product as `torch.mm` (sparsity only affects storage). -/
def spmm (A : Matrix (Fin n) (Fin k) α) (S : Matrix (Fin k) (Fin m) α) :
    Matrix (Fin n) (Fin m) α :=
  Matrix.of fun i j => ∑ l, A i l * S l j

/-- Parameters of a `GCN` layer (`model.py` lines 14-23): a weight matrix
`(in_features, out_features)` and an optional bias vector
`(out_features)`; `bias = none` models construction with `bias=False`
(where `register_parameter('bias', None)` is used). -/
structure GCNParams (fin fout : ℕ) (α : Type) where
  weight : Matrix (Fin fin) (Fin fout) α
  bias : Option (Fin fout → α)

/-- `GCN.forward` (`model.py` lines 31-37):
`support = torch.mm(input, weight)`, `output = torch.spmm(adj, support)`,
then `output + bias` (bias broadcast over rows) when the bias parameter
is present, else `output`. -/
def GCN.forward (p : GCNParams fin fout α)
    (input : Matrix (Fin n) (Fin fin) α) (adj : Matrix (Fin n) (Fin n) α) :
    Matrix (Fin n) (Fin fout) α :=
  let support := mm input p.weight
  let output := spmm adj support
  match p.bias with
  | some b => Matrix.of fun i j => output i j + b j
  | none => output

/-- `F.relu`: elementwise `max x 0`. -/
def reluM (X : Matrix (Fin n) (Fin m) α) : Matrix (Fin n) (Fin m) α :=
  Matrix.of fun i j => max (X i j) 0

/-- `F.dropout(x, p, training)`: identity when `training` is false; in
training mode each kept entry (mask true, a Bernoulli draw with
probability `1 - p`, passed here explicitly) is rescaled by `1 / (1 - p)`
and each dropped entry becomes `0`. -/
def dropoutM (p : α) (training : Bool) (mask : Fin n → Fin m → Bool)
    (X : Matrix (Fin n) (Fin m) α) : Matrix (Fin n) (Fin m) α :=
  if training then
    Matrix.of fun i j => if mask i j then X i j / (1 - p) else 0
  else X

lemma mm_eq_mul (X : Matrix (Fin n) (Fin k) α) (W : Matrix (Fin k) (Fin m) α) :
    mm X W = X * W := by
  ext i j
  simp [mm, Matrix.mul_apply]

lemma spmm_eq_mul (A : Matrix (Fin n) (Fin k) α) (S : Matrix (Fin k) (Fin m) α) :
    spmm A S = A * S := by
  ext i j
  simp [spmm, Matrix.mul_apply]

lemma dropoutM_not_training (p : α) (mask : Fin n → Fin m → Bool)
    (X : Matrix (Fin n) (Fin m) α) : dropoutM p false mask X = X := rfl

/-- C1: for every node-feature matrix `X : (N, Fin)` and adjacency
`A : (N, N)`, `GCN.forward` returns `A * (X * W) + b` (bias broadcast
over the `N` rows) when bias is enabled and `A * (X * W)` when bias is
disabled; the result type `Matrix (Fin N) (Fin Fout) ℝ` carries the
claimed output shape `(N, Fout)`. -/
theorem gcn_forward_eq_adj_mul_support_add_bias
    (W : Matrix (Fin fin) (Fin fout) ℝ) (b : Fin fout → ℝ)
    (X : Matrix (Fin n) (Fin fin) ℝ) (A : Matrix (Fin n) (Fin n) ℝ) :
    GCN.forward ⟨W, some b⟩ X A =
      A * (X * W) + Matrix.of (fun _ j => b j) ∧
    GCN.forward ⟨W, none⟩ X A = A * (X * W) := by
  constructor
  · ext i j
    simp [GCN.forward, mm_eq_mul, spmm_eq_mul, Matrix.add_apply]
  · ext i j
    simp [GCN.forward, mm_eq_mul, spmm_eq_mul]

/-- C5: with the same weight matrix `W`, the output of the bias-disabled
layer equals the output of the biased layer minus the bias vector
(broadcast over rows): the bias contributes additively, independently of
the adjacency propagation step. -/
theorem gcn_forward_no_bias_eq_biased_sub_bias
    (W : Matrix (Fin fin) (Fin fout) ℝ) (b : Fin fout → ℝ)
    (X : Matrix (Fin n) (Fin fin) ℝ) (A : Matrix (Fin n) (Fin n) ℝ) :
    GCN.forward ⟨W, none⟩ X A =
      Matrix.of (fun i j => GCN.forward ⟨W, some b⟩ X A i j - b j) := by
  ext i j
  simp [GCN.forward]

/-- C7: with `N = 4`, `Fin = 3`, `Fout = 2` and the all-zero adjacency
matrix, `GCN.forward` returns the bias vector on every row when bias is
enabled and the all-zero matrix when bias is disabled, regardless of the
input feature matrix `X`. -/
theorem gcn_forward_zero_adj
    (W : Matrix (Fin 3) (Fin 2) ℝ) (b : Fin 2 → ℝ)
    (X : Matrix (Fin 4) (Fin 3) ℝ) :
    GCN.forward ⟨W, some b⟩ X (0 : Matrix (Fin 4) (Fin 4) ℝ) =
      Matrix.of (fun _ j => b j) ∧
    GCN.forward ⟨W, none⟩ X (0 : Matrix (Fin 4) (Fin 4) ℝ) = 0 := by
  constructor
  · ext i j
    simp [GCN.forward, mm, spmm]
  · ext i j
    simp [GCN.forward, mm, spmm]

/-- Parameters of `GCNencoder` (`model.py` lines 50-56): a dropout rate
and two `GCN` layers, `gc1 : nfeat -> nhid` and `gc2 : nhid -> nout`,
both constructed with the default `bias=True`. -/
structure GCNencoder.Params (nfeat nhid nout : ℕ) (α : Type) where
  dropout : α
  gc1w : Matrix (Fin nfeat) (Fin nhid) α
  gc1b : Fin nhid → α
  gc2w : Matrix (Fin nhid) (Fin nout) α
  gc2b : Fin nout → α

/-- `GCNencoder.forward` (`model.py` lines 58-63):
`x = relu(gc1(x, adj))`, `x = dropout(x)`, `x = relu(gc2(x, adj))`,
`x = dropout(x)`.  The two Bernoulli mask draws of the dropout calls are
passed explicitly. -/
def GCNencoder.forward {nfeat nhid nout : ℕ}
    (p : GCNencoder.Params nfeat nhid nout α) (training : Bool)
    (m1 : Fin n → Fin nhid → Bool) (m2 : Fin n → Fin nout → Bool)
    (x : Matrix (Fin n) (Fin nfeat) α) (adj : Matrix (Fin n) (Fin n) α) :
    Matrix (Fin n) (Fin nout) α :=
  let x1 := dropoutM p.dropout training m1
    (reluM (GCN.forward ⟨p.gc1w, some p.gc1b⟩ x adj))
  let x2 := dropoutM p.dropout training m2
    (reluM (GCN.forward ⟨p.gc2w, some p.gc2b⟩ x1 adj))
  x2

/-- Parameters of `GCNdecoder` (`model.py` lines 71-77): same fields as
the encoder. -/
structure GCNdecoder.Params (nfeat nhid nout : ℕ) (α : Type) where
  dropout : α
  gc1w : Matrix (Fin nfeat) (Fin nhid) α
  gc1b : Fin nhid → α
  gc2w : Matrix (Fin nhid) (Fin nout) α
  gc2b : Fin nout → α

/-- `GCNdecoder.forward` (`model.py` lines 80-85): same body as
`GCNencoder.forward`. -/
def GCNdecoder.forward {nfeat nhid nout : ℕ}
    (p : GCNdecoder.Params nfeat nhid nout α) (training : Bool)
    (m1 : Fin n → Fin nhid → Bool) (m2 : Fin n → Fin nout → Bool)
    (x : Matrix (Fin n) (Fin nfeat) α) (adj : Matrix (Fin n) (Fin n) α) :
    Matrix (Fin n) (Fin nout) α :=
  let x1 := dropoutM p.dropout training m1
    (reluM (GCN.forward ⟨p.gc1w, some p.gc1b⟩ x adj))
  let x2 := dropoutM p.dropout training m2
    (reluM (GCN.forward ⟨p.gc2w, some p.gc2b⟩ x1 adj))
  x2

/-- Parameters of `Teacher` (`model.py` lines 116-122): a dropout rate
shared by the encoder `GCNencoder(nfeat, nhid1, nhid2, dropout)` and the
decoder `GCNdecoder(nhid2, nhid3, nhid4, dropout)`; the four layers'
weights and biases. -/
structure Teacher.Params (nfeat nhid1 nhid2 nhid3 nhid4 : ℕ) (α : Type) where
  dropout : α
  e1w : Matrix (Fin nfeat) (Fin nhid1) α
  e1b : Fin nhid1 → α
  e2w : Matrix (Fin nhid1) (Fin nhid2) α
  e2b : Fin nhid2 → α
  d1w : Matrix (Fin nhid2) (Fin nhid3) α
  d1b : Fin nhid3 → α
  d2w : Matrix (Fin nhid3) (Fin nhid4) α
  d2b : Fin nhid4 → α

/-- `Teacher.forward` (`model.py` lines 124-127):
`embedding = encoder.forward(x, adj)`;
`super_resolved_matrix = decoder.forward(embedding, adj)`;
returns `(embedding, super_resolved_matrix)`. -/
def Teacher.forward {nfeat nhid1 nhid2 nhid3 nhid4 : ℕ}
    (p : Teacher.Params nfeat nhid1 nhid2 nhid3 nhid4 α) (training : Bool)
    (me1 : Fin n → Fin nhid1 → Bool) (me2 : Fin n → Fin nhid2 → Bool)
    (md1 : Fin n → Fin nhid3 → Bool) (md2 : Fin n → Fin nhid4 → Bool)
    (x : Matrix (Fin n) (Fin nfeat) α) (adj : Matrix (Fin n) (Fin n) α) :
    Matrix (Fin n) (Fin nhid2) α × Matrix (Fin n) (Fin nhid4) α :=
  let embedding := GCNencoder.forward
    ⟨p.dropout, p.e1w, p.e1b, p.e2w, p.e2b⟩ training me1 me2 x adj
  let super_resolved_matrix := GCNdecoder.forward
    ⟨p.dropout, p.d1w, p.d1b, p.d2w, p.d2b⟩ training md1 md2 embedding adj
  (embedding, super_resolved_matrix)

/-- Parameters of `Student` (`model.py` lines 134-140): same fields as
`Teacher.Params`. -/
structure Student.Params (nfeat nhid1 nhid2 nhid3 nhid4 : ℕ) (α : Type) where
  dropout : α
  e1w : Matrix (Fin nfeat) (Fin nhid1) α
  e1b : Fin nhid1 → α
  e2w : Matrix (Fin nhid1) (Fin nhid2) α
  e2b : Fin nhid2 → α
  d1w : Matrix (Fin nhid2) (Fin nhid3) α
  d1b : Fin nhid3 → α
  d2w : Matrix (Fin nhid3) (Fin nhid4) α
  d2b : Fin nhid4 → α

/-- `Student.forward` (`model.py` lines 142-145): same body as
`Teacher.forward`. -/
def Student.forward {nfeat nhid1 nhid2 nhid3 nhid4 : ℕ}
    (p : Student.Params nfeat nhid1 nhid2 nhid3 nhid4 α) (training : Bool)
    (me1 : Fin n → Fin nhid1 → Bool) (me2 : Fin n → Fin nhid2 → Bool)
    (md1 : Fin n → Fin nhid3 → Bool) (md2 : Fin n → Fin nhid4 → Bool)
    (x : Matrix (Fin n) (Fin nfeat) α) (adj : Matrix (Fin n) (Fin n) α) :
    Matrix (Fin n) (Fin nhid2) α × Matrix (Fin n) (Fin nhid4) α :=
  let embedding := GCNencoder.forward
    ⟨p.dropout, p.e1w, p.e1b, p.e2w, p.e2b⟩ training me1 me2 x adj
  let super_resolved_matrix := GCNdecoder.forward
    ⟨p.dropout, p.d1w, p.d1b, p.d2w, p.d2b⟩ training md1 md2 embedding adj
  (embedding, super_resolved_matrix)

/-- C3: in evaluation mode (dropout is the identity), the encoder and the
decoder compute exactly the pipeline: GCN layer 1, then rectified-linear
activation, then dropout (here the identity), then GCN layer 2, then
rectified-linear activation, then dropout; the result type
`Matrix (Fin n) (Fin nout) ℝ` carries the claimed output shape
`(N, nout)` for every `N`. -/
theorem encoder_decoder_forward_pipeline {nfeat nhid nout : ℕ}
    (p : GCNencoder.Params nfeat nhid nout ℝ)
    (q : GCNdecoder.Params nfeat nhid nout ℝ)
    (m1 : Fin n → Fin nhid → Bool) (m2 : Fin n → Fin nout → Bool)
    (x : Matrix (Fin n) (Fin nfeat) ℝ) (adj : Matrix (Fin n) (Fin n) ℝ) :
    GCNencoder.forward p false m1 m2 x adj =
      reluM (GCN.forward ⟨p.gc2w, some p.gc2b⟩
        (reluM (GCN.forward ⟨p.gc1w, some p.gc1b⟩ x adj)) adj) ∧
    GCNdecoder.forward q false m1 m2 x adj =
      reluM (GCN.forward ⟨q.gc2w, some q.gc2b⟩
        (reluM (GCN.forward ⟨q.gc1w, some q.gc1b⟩ x adj)) adj) := by
  constructor
  · simp [GCNencoder.forward, dropoutM_not_training]
  · simp [GCNdecoder.forward, dropoutM_not_training]

/-- C8: `GCNencoder.forward` and `GCNdecoder.forward` are the same
function: for every hyperparameter choice `(nfeat, nhid, nout)`, every
identical parameter assignment (dropout rate, weights and biases), every
training-mode setting (with identical dropout mask draws) and every
`(X, A)`, they return equal results. -/
theorem encoder_forward_eq_decoder_forward {nfeat nhid nout : ℕ}
    (dropout : ℝ)
    (gc1w : Matrix (Fin nfeat) (Fin nhid) ℝ) (gc1b : Fin nhid → ℝ)
    (gc2w : Matrix (Fin nhid) (Fin nout) ℝ) (gc2b : Fin nout → ℝ)
    (training : Bool)
    (m1 : Fin n → Fin nhid → Bool) (m2 : Fin n → Fin nout → Bool)
    (x : Matrix (Fin n) (Fin nfeat) ℝ) (adj : Matrix (Fin n) (Fin n) ℝ) :
    GCNencoder.forward ⟨dropout, gc1w, gc1b, gc2w, gc2b⟩ training m1 m2 x adj =
    GCNdecoder.forward ⟨dropout, gc1w, gc1b, gc2w, gc2b⟩ training m1 m2 x adj :=
  rfl

/-- C2: a `Teacher` and a `Student` built with the same hyperparameters
`(nfeat, nhid1, nhid2, nhid3, nhid4, dropout)` and holding identical
weight and bias parameters produce, in evaluation mode (dropout
disabled), identical `(embedding, output)` pairs on every `(X, A)`. -/
theorem teacher_forward_eq_student_forward {nfeat nhid1 nhid2 nhid3 nhid4 : ℕ}
    (dropout : ℝ)
    (e1w : Matrix (Fin nfeat) (Fin nhid1) ℝ) (e1b : Fin nhid1 → ℝ)
    (e2w : Matrix (Fin nhid1) (Fin nhid2) ℝ) (e2b : Fin nhid2 → ℝ)
    (d1w : Matrix (Fin nhid2) (Fin nhid3) ℝ) (d1b : Fin nhid3 → ℝ)
    (d2w : Matrix (Fin nhid3) (Fin nhid4) ℝ) (d2b : Fin nhid4 → ℝ)
    (me1 : Fin n → Fin nhid1 → Bool) (me2 : Fin n → Fin nhid2 → Bool)
    (md1 : Fin n → Fin nhid3 → Bool) (md2 : Fin n → Fin nhid4 → Bool)
    (x : Matrix (Fin n) (Fin nfeat) ℝ) (adj : Matrix (Fin n) (Fin n) ℝ) :
    Teacher.forward ⟨dropout, e1w, e1b, e2w, e2b, d1w, d1b, d2w, d2b⟩
      false me1 me2 md1 md2 x adj =
    Student.forward ⟨dropout, e1w, e1b, e2w, e2b, d1w, d1b, d2w, d2b⟩
      false me1 me2 md1 md2 x adj :=
  rfl

/-- C10: with the module not in training mode (dropout inactive), every
entry returned by `GCNencoder.forward` and `GCNdecoder.forward` is
nonnegative, hence both components returned by `Teacher.forward` and
`Student.forward` are elementwise nonnegative: the last value-changing
step of each pipeline is the rectified-linear activation. -/
theorem eval_mode_outputs_nonneg {nfeat nhid nout nhid1 nhid2 nhid3 nhid4 : ℕ}
    (p : GCNencoder.Params nfeat nhid nout ℝ)
    (q : GCNdecoder.Params nfeat nhid nout ℝ)
    (t : Teacher.Params nfeat nhid1 nhid2 nhid3 nhid4 ℝ)
    (s : Student.Params nfeat nhid1 nhid2 nhid3 nhid4 ℝ)
    (m1 : Fin n → Fin nhid → Bool) (m2 : Fin n → Fin nout → Bool)
    (me1 : Fin n → Fin nhid1 → Bool) (me2 : Fin n → Fin nhid2 → Bool)
    (md1 : Fin n → Fin nhid3 → Bool) (md2 : Fin n → Fin nhid4 → Bool)
    (x : Matrix (Fin n) (Fin nfeat) ℝ) (adj : Matrix (Fin n) (Fin n) ℝ) :
    (∀ i j, 0 ≤ GCNencoder.forward p false m1 m2 x adj i j) ∧
    (∀ i j, 0 ≤ GCNdecoder.forward q false m1 m2 x adj i j) ∧
    (∀ i j, 0 ≤ (Teacher.forward t false me1 me2 md1 md2 x adj).1 i j) ∧
    (∀ i j, 0 ≤ (Teacher.forward t false me1 me2 md1 md2 x adj).2 i j) ∧
    (∀ i j, 0 ≤ (Student.forward s false me1 me2 md1 md2 x adj).1 i j) ∧
    (∀ i j, 0 ≤ (Student.forward s false me1 me2 md1 md2 x adj).2 i j) := by
  refine ⟨?_, ?_, ?_, ?_, ?_, ?_⟩ <;>
    intro i j <;>
    simp [GCNencoder.forward, GCNdecoder.forward, Teacher.forward,
      Student.forward, dropoutM_not_training, reluM]

/-- `F.sigmoid`: `1 / (1 + exp (-x))`. -/
noncomputable def sigmoid (x : ℝ) : ℝ := 1 / (1 + Real.exp (-x))

/-- `F.softmax(x, dim=0)` on a vector: `exp (x i) / ∑ j, exp (x j)`. -/
noncomputable def softmax (v : Fin n → ℝ) : Fin n → ℝ :=
  fun i => Real.exp (v i) / ∑ j, Real.exp (v j)

/-- `Tensor.view`: row-major reshape of an `(n, k)` tensor to a vector of
length `m`; defined (returns `some`) exactly when the element counts
match (`n * k = m`), and raising (returning `none`) otherwise, as the
underlying tensor library does. -/
def viewFlat (a : Matrix (Fin n) (Fin k) α) (m : ℕ) : Option (Fin m → α) :=
  if h : n * k = m then
    some (fun i =>
      have him : (i : ℕ) < n * k := h ▸ i.isLt
      have hk : 0 < k := by
        rcases Nat.eq_zero_or_pos k with h0 | h0
        · subst h0; simp at him
        · exact h0
      a ⟨(i : ℕ) / k, by rw [Nat.div_lt_iff_lt_mul hk]; exact him⟩
        ⟨(i : ℕ) % k, Nat.mod_lt _ hk⟩)
  else none

/-- Parameters of `Discriminator` (`model.py` lines 93-100): a dropout
rate and three `GCN` layers with the hard-coded hidden dimensions
`gc1 : input_size -> 32`, `gc2 : 32 -> 16`, `gc3 : 16 -> output_size`,
all constructed with the default `bias=True`. -/
structure Discriminator.Params (input_size output_size : ℕ) where
  dropout : ℝ
  gc1w : Matrix (Fin input_size) (Fin 32) ℝ
  gc1b : Fin 32 → ℝ
  gc2w : Matrix (Fin 32) (Fin 16) ℝ
  gc2b : Fin 16 → ℝ
  gc3w : Matrix (Fin 16) (Fin output_size) ℝ
  gc3b : Fin output_size → ℝ

/-- `Discriminator.forward` (`model.py` lines 102-109):
`x = relu(gc1(x, adj))`, `x = dropout(x)`, `x = relu(gc2(x, adj))`,
`x = dropout(x)`, `a = gc3(x, adj)`, `x = a.view(a.shape[0])`, then
return `(F.sigmoid(x), F.softmax(x, dim=0))`.  The `view` reshape is
partial, hence the `Option` result. -/
noncomputable def Discriminator.forward {input_size output_size : ℕ}
    (p : Discriminator.Params input_size output_size) (training : Bool)
    (m1 : Fin n → Fin 32 → Bool) (m2 : Fin n → Fin 16 → Bool)
    (x : Matrix (Fin n) (Fin input_size) ℝ) (adj : Matrix (Fin n) (Fin n) ℝ) :
    Option ((Fin n → ℝ) × (Fin n → ℝ)) :=
  let x1 := dropoutM p.dropout training m1
    (reluM (GCN.forward ⟨p.gc1w, some p.gc1b⟩ x adj))
  let x2 := dropoutM p.dropout training m2
    (reluM (GCN.forward ⟨p.gc2w, some p.gc2b⟩ x1 adj))
  let a := GCN.forward ⟨p.gc3w, some p.gc3b⟩ x2 adj
  (viewFlat a n).map fun v => (fun i => sigmoid (v i), softmax v)

lemma sigmoid_pos (x : ℝ) : 0 < sigmoid x := by
  unfold sigmoid
  positivity

lemma sigmoid_lt_one (x : ℝ) : sigmoid x < 1 := by
  rw [sigmoid, div_lt_one (by positivity)]
  linarith [Real.exp_pos (-x)]

lemma softmax_sum_eq_one (hn : 0 < n) (v : Fin n → ℝ) :
    ∑ i, softmax v i = 1 := by
  have hpos : 0 < ∑ j, Real.exp (v j) :=
    Finset.sum_pos (fun j _ => Real.exp_pos _) ⟨⟨0, hn⟩, Finset.mem_univ _⟩
  simp only [softmax]
  rw [← Finset.sum_div]
  exact div_self (ne_of_gt hpos)

lemma gcn_forward_adj_zero (W : Matrix (Fin fin) (Fin fout) α)
    (b : Fin fout → α) (X : Matrix (Fin n) (Fin fin) α) :
    GCN.forward ⟨W, some b⟩ X (0 : Matrix (Fin n) (Fin n) α) =
      Matrix.of fun _ j => b j := by
  ext i j
  simp [GCN.forward, mm, spmm]

lemma gcn_forward_adj_zero_no_bias (W : Matrix (Fin fin) (Fin fout) α)
    (X : Matrix (Fin n) (Fin fin) α) :
    GCN.forward ⟨W, none⟩ X (0 : Matrix (Fin n) (Fin n) α) = 0 := by
  ext i j
  simp [GCN.forward, mm, spmm]

/-- C9: for every `N > 0` and every `output_size ≠ 1`, the reshape
`a.view(a.shape[0])` of the `(N, output_size)` third-stage result to a
vector of length `N` fails, so `Discriminator.forward` returns `none`
(the model of the tensor-library raise), for every input `(X, A)`,
dropout configuration and parameter assignment. -/
theorem disc_forward_none_of_output_size_ne_one
    {input_size output_size : ℕ}
    (hn : 0 < n) (hk : output_size ≠ 1)
    (p : Discriminator.Params input_size output_size) (training : Bool)
    (m1 : Fin n → Fin 32 → Bool) (m2 : Fin n → Fin 16 → Bool)
    (x : Matrix (Fin n) (Fin input_size) ℝ)
    (adj : Matrix (Fin n) (Fin n) ℝ) :
    Discriminator.forward p training m1 m2 x adj = none := by
  have hne : n * output_size ≠ n := by
    intro h
    exact hk (Nat.eq_of_mul_eq_mul_left hn (h.trans (Nat.mul_one n).symm))
  simp [Discriminator.forward, viewFlat, hne]

/-- All-zero parameters of a `Discriminator(1, 2, 0)`. -/
noncomputable def P12 : Discriminator.Params 1 2 :=
  ⟨0, Matrix.of fun _ _ => 0, fun _ => 0, Matrix.of fun _ _ => 0, fun _ => 0,
    Matrix.of fun _ _ => 0, fun _ => 0⟩

/-- Witness for C9: at `N = 1`, `output_size = 2`, zero parameters and
zero inputs, the forward pass returns `none`. -/
theorem disc_forward_none_witness :
    Discriminator.forward P12 false (fun _ _ => true) (fun _ _ => true)
      (0 : Matrix (Fin 1) (Fin 1) ℝ) 0 = none :=
  disc_forward_none_of_output_size_ne_one (by decide) (by decide) P12 false
    (fun _ _ => true) (fun _ _ => true) 0 0

/-- C6 (amended): for every `N > 0`, whenever `Discriminator.forward`
returns a pair `(s, pr)`, every element of the sigmoid view `s` lies
strictly between `0` and `1`, and the elements of the softmax view `pr`
sum to `1` across the vector. -/
theorem disc_forward_sigmoid_softmax_ranges {input_size output_size : ℕ}
    (hn : 0 < n)
    (p : Discriminator.Params input_size output_size) (training : Bool)
    (m1 : Fin n → Fin 32 → Bool) (m2 : Fin n → Fin 16 → Bool)
    (x : Matrix (Fin n) (Fin input_size) ℝ)
    (adj : Matrix (Fin n) (Fin n) ℝ) (s pr : Fin n → ℝ)
    (h : Discriminator.forward p training m1 m2 x adj = some (s, pr)) :
    (∀ i, 0 < s i ∧ s i < 1) ∧ ∑ i, pr i = 1 := by
  unfold Discriminator.forward at h
  rw [Option.map_eq_some'] at h
  obtain ⟨v, _, hfv⟩ := h
  have hs := congrArg Prod.fst hfv
  have hp := congrArg Prod.snd hfv
  simp only at hs hp
  constructor
  · intro i
    rw [← hs]
    exact ⟨sigmoid_pos _, sigmoid_lt_one _⟩
  · rw [← hp]
    exact softmax_sum_eq_one hn v

/-- All-zero parameters of a `Discriminator(1, 1, 0)`. -/
noncomputable def P11 : Discriminator.Params 1 1 :=
  ⟨0, Matrix.of fun _ _ => 0, fun _ => 0, Matrix.of fun _ _ => 0, fun _ => 0,
    Matrix.of fun _ _ => 0, fun _ => 0⟩

lemma disc_forward_P11_eval :
    Discriminator.forward P11 false (fun _ _ => true) (fun _ _ => true)
      (0 : Matrix (Fin 1) (Fin 1) ℝ) 0 =
    some (fun _ => sigmoid 0, softmax fun _ : Fin 1 => (0 : ℝ)) := by
  simp only [Discriminator.forward, dropoutM_not_training, P11,
    gcn_forward_adj_zero]
  have hview : viewFlat (Matrix.of fun (_ : Fin 1) (_ : Fin 1) => (0 : ℝ)) 1 =
      some (fun _ => (0 : ℝ)) := by
    simp [viewFlat]
  rw [hview]
  simp

/-- Witness for C6: at `N = 1` with zero parameters, zero inputs and
evaluation mode, the returned sigmoid view is strictly between `0` and
`1` elementwise and the returned softmax view sums to `1`. -/
theorem disc_forward_sigmoid_softmax_ranges_witness :
    (∀ i : Fin 1, 0 < (fun _ : Fin 1 => sigmoid 0) i ∧
      (fun _ : Fin 1 => sigmoid 0) i < 1) ∧
    ∑ i : Fin 1, softmax (fun _ : Fin 1 => (0 : ℝ)) i = 1 :=
  disc_forward_sigmoid_softmax_ranges (by decide) P11 false
    (fun _ _ => true) (fun _ _ => true) 0 0
    (fun _ => sigmoid 0) (softmax fun _ : Fin 1 => (0 : ℝ))
    disc_forward_P11_eval

/-- Counterexample for C6 as stated: on the empty graph (`N = 0`, a valid
input to every tensor operation involved), `Discriminator.forward`
returns a pair whose softmax view is the empty vector, whose elements sum
to `0`, not `1`; so the claim's unqualified "for every (X, A)" fails. -/
theorem disc_forward_softmax_sum_counterexample :
    ¬ ∀ s pr : Fin 0 → ℝ,
        Discriminator.forward P11 false (fun _ _ => true) (fun _ _ => true)
          (0 : Matrix (Fin 0) (Fin 1) ℝ) 0 = some (s, pr) →
        ((∀ i, 0 < s i ∧ s i < 1) ∧ ∑ i, pr i = 1) := by
  intro h
  have heq : Discriminator.forward P11 false (fun _ _ => true)
      (fun _ _ => true) (0 : Matrix (Fin 0) (Fin 1) ℝ) 0 =
      some (fun i => i.elim0, fun i => i.elim0) := by
    simp only [Discriminator.forward, dropoutM_not_training, P11,
      gcn_forward_adj_zero]
    have hview : viewFlat (Matrix.of fun (_ : Fin 0) (_ : Fin 1) => (0 : ℝ)) 0
        = some (fun i : Fin 0 => i.elim0) := by
      unfold viewFlat
      rw [dif_pos (show 0 * 1 = 0 by omega)]
      refine congrArg some ?_
      funext i
      exact i.elim0
    rw [hview]
    simp only [Option.map_some']
    refine congrArg some (Prod.ext ?_ ?_) <;> funext i <;> exact i.elim0
  have h2 := (h _ _ heq).2
  simp at h2

omit [LinearOrderedField α] in
lemma viewFlat_const (c : α) :
    viewFlat (Matrix.of fun (_ : Fin n) (_ : Fin 1) => c) n = some fun _ => c := by
  unfold viewFlat
  rw [dif_pos (Nat.mul_one n)]
  rfl

lemma sigmoid_injective : Function.Injective sigmoid := by
  intro a b hab
  unfold sigmoid at hab
  have ha : (0 : ℝ) < 1 + Real.exp (-a) := by positivity
  have hb : (0 : ℝ) < 1 + Real.exp (-b) := by positivity
  rw [div_eq_div_iff (ne_of_gt ha) (ne_of_gt hb)] at hab
  have hexp : Real.exp (-a) = Real.exp (-b) := by linarith
  have := Real.exp_injective hexp
  linarith

/-- Modelled from the claim's wording (for comparison with the source's
`Discriminator.forward`): three chained GCN stages with dimensions
`input_size -> 32 -> 16 -> output_size`, with rectified-linear activation
and dropout only between the first two stages (after stage 1), the final
`(N, output_size)` result reshaped to a length-`N` vector and returned as
its sigmoid view and its softmax view. -/
noncomputable def Discriminator.claimedForward {input_size output_size : ℕ}
    (p : Discriminator.Params input_size output_size) (training : Bool)
    (m1 : Fin n → Fin 32 → Bool)
    (x : Matrix (Fin n) (Fin input_size) ℝ) (adj : Matrix (Fin n) (Fin n) ℝ) :
    Option ((Fin n → ℝ) × (Fin n → ℝ)) :=
  let x1 := dropoutM p.dropout training m1
    (reluM (GCN.forward ⟨p.gc1w, some p.gc1b⟩ x adj))
  let x2 := GCN.forward ⟨p.gc2w, some p.gc2b⟩ x1 adj
  let a := GCN.forward ⟨p.gc3w, some p.gc3b⟩ x2 adj
  (viewFlat a n).map fun v => (fun i => sigmoid (v i), softmax v)

/-- `Discriminator(1, 1, 0)` parameters: `gc1` weights all `1`, `gc2`
weights all `-1`, `gc3` weights all `1`, all biases `0`. -/
noncomputable def PD : Discriminator.Params 1 1 :=
  ⟨0, Matrix.of fun _ _ => 1, fun _ => 0, Matrix.of fun _ _ => -1, fun _ => 0,
    Matrix.of fun _ _ => 1, fun _ => 0⟩

lemma pd_stage1 :
    reluM (GCN.forward ⟨PD.gc1w, some PD.gc1b⟩
        (Matrix.of fun _ _ => (1 : ℝ)) (Matrix.of fun _ _ => (1 : ℝ))) =
      Matrix.of fun (_ : Fin 1) (_ : Fin 32) => (1 : ℝ) := by
  ext i j
  simp [GCN.forward, mm, spmm, PD, reluM, Fin.sum_univ_one]

lemma pd_stage2 :
    GCN.forward ⟨PD.gc2w, some PD.gc2b⟩
        (Matrix.of fun (_ : Fin 1) (_ : Fin 32) => (1 : ℝ))
        (Matrix.of fun _ _ => (1 : ℝ)) =
      Matrix.of fun (_ : Fin 1) (_ : Fin 16) => (-32 : ℝ) := by
  ext i j
  simp [GCN.forward, mm, spmm, PD, Fin.sum_univ_one, Finset.sum_const,
    Finset.card_univ, Fintype.card_fin, nsmul_eq_mul]

lemma pd_stage2_relu :
    reluM (Matrix.of fun (_ : Fin 1) (_ : Fin 16) => (-32 : ℝ)) =
      Matrix.of fun (_ : Fin 1) (_ : Fin 16) => (0 : ℝ) := by
  ext i j
  simp [reluM]

lemma pd_stage3_zero :
    GCN.forward ⟨PD.gc3w, some PD.gc3b⟩
        (Matrix.of fun (_ : Fin 1) (_ : Fin 16) => (0 : ℝ))
        (Matrix.of fun _ _ => (1 : ℝ)) =
      Matrix.of fun (_ : Fin 1) (_ : Fin 1) => (0 : ℝ) := by
  ext i j
  simp [GCN.forward, mm, spmm, PD, Fin.sum_univ_one]

lemma pd_stage3_neg :
    GCN.forward ⟨PD.gc3w, some PD.gc3b⟩
        (Matrix.of fun (_ : Fin 1) (_ : Fin 16) => (-32 : ℝ))
        (Matrix.of fun _ _ => (1 : ℝ)) =
      Matrix.of fun (_ : Fin 1) (_ : Fin 1) => (-512 : ℝ) := by
  ext i j
  simp [GCN.forward, mm, spmm, PD, Fin.sum_univ_one, Finset.sum_const,
    Finset.card_univ, Fintype.card_fin, nsmul_eq_mul]
  norm_num

/-- Counterexample for C4 as stated: with all-ones inputs on a single
node, `gc1` weights `1`, `gc2` weights `-1`, `gc3` weights `1` and zero
biases, the source's `Discriminator.forward` (which also applies
rectified-linear activation and dropout after the second stage) returns
a sigmoid view `sigmoid 0`, while the pipeline described by the claim
(activation and dropout only between the first two stages) returns
`sigmoid (-512)`; the two differ. -/
theorem disc_forward_ne_claimed_pipeline :
    Discriminator.forward PD false (fun _ _ => true) (fun _ _ => true)
        (Matrix.of fun _ _ => (1 : ℝ) : Matrix (Fin 1) (Fin 1) ℝ)
        (Matrix.of fun _ _ => (1 : ℝ)) ≠
      Discriminator.claimedForward PD false (fun _ _ => true)
        (Matrix.of fun _ _ => (1 : ℝ) : Matrix (Fin 1) (Fin 1) ℝ)
        (Matrix.of fun _ _ => (1 : ℝ)) := by
  have hcode : Discriminator.forward PD false (fun _ _ => true)
      (fun _ _ => true) (Matrix.of fun _ _ => (1 : ℝ) : Matrix (Fin 1) (Fin 1) ℝ)
      (Matrix.of fun _ _ => (1 : ℝ)) =
      some (fun _ => sigmoid 0, softmax fun _ : Fin 1 => (0 : ℝ)) := by
    rw [Discriminator.forward]
    simp only [dropoutM_not_training]
    rw [pd_stage1, pd_stage2, pd_stage2_relu, pd_stage3_zero, viewFlat_const,
      Option.map_some']
  have hspec : Discriminator.claimedForward PD false (fun _ _ => true)
      (Matrix.of fun _ _ => (1 : ℝ) : Matrix (Fin 1) (Fin 1) ℝ)
      (Matrix.of fun _ _ => (1 : ℝ)) =
      some (fun _ => sigmoid (-512), softmax fun _ : Fin 1 => (-512 : ℝ)) := by
    rw [Discriminator.claimedForward]
    simp only [dropoutM_not_training]
    rw [pd_stage1, pd_stage2, pd_stage3_neg, viewFlat_const, Option.map_some']
  rw [hcode, hspec]
  intro h
  have h1 := congrFun (congrArg Prod.fst (Option.some.inj h)) 0
  have h2 := sigmoid_injective h1
  norm_num at h2

/-- The amended claim's pipeline, written out independently of
`Discriminator.forward`: three chained GCN stages with dimensions
`input_size -> 32 -> 16 -> output_size`, rectified-linear activation and
dropout following each of the first two stages, the final
`(N, output_size)` result reshaped to a length-`N` vector, returned as
its elementwise sigmoid view and its softmax view. -/
noncomputable def Discriminator.amendedClaimForward {input_size output_size : ℕ}
    (p : Discriminator.Params input_size output_size) (training : Bool)
    (m1 : Fin n → Fin 32 → Bool) (m2 : Fin n → Fin 16 → Bool)
    (x : Matrix (Fin n) (Fin input_size) ℝ) (adj : Matrix (Fin n) (Fin n) ℝ) :
    Option ((Fin n → ℝ) × (Fin n → ℝ)) :=
  Option.map (fun v => (fun i => sigmoid (v i), softmax v))
    (viewFlat
      (GCN.forward ⟨p.gc3w, some p.gc3b⟩
        (dropoutM p.dropout training m2
          (reluM (GCN.forward ⟨p.gc2w, some p.gc2b⟩
            (dropoutM p.dropout training m1
              (reluM (GCN.forward ⟨p.gc1w, some p.gc1b⟩ x adj))) adj)))
        adj) n)

/-- C4 (amended): `Discriminator.forward` applies three chained
graph-convolution stages with dimensions
`input_size -> 32 -> 16 -> output_size`, with rectified-linear activation
and dropout following each of the first two stages, and returns two views
of the same final vector: its elementwise sigmoid and its softmax. -/
theorem disc_forward_eq_amended_pipeline {input_size output_size : ℕ}
    (p : Discriminator.Params input_size output_size) (training : Bool)
    (m1 : Fin n → Fin 32 → Bool) (m2 : Fin n → Fin 16 → Bool)
    (x : Matrix (Fin n) (Fin input_size) ℝ)
    (adj : Matrix (Fin n) (Fin n) ℝ) :
    Discriminator.forward p training m1 m2 x adj =
      Discriminator.amendedClaimForward p training m1 m2 x adj :=
  rfl
